import Mathlib

/-!
Verification of the configuration-block serialization subsystem of glm-py
(src/glmpy/nml.py and its caller src/glmpy/json.py), shallowly embedded in
Lean 4.

Modelling conventions, used throughout:
* A Python value that may be `None` is an `Option`.
* A Python `float` is represented by the string `str()` renders it to
  (`PyFloat`), because the serializer code only ever applies `str()` to
  floats and never computes with them.
* Python f-string interpolation `{x}` is `str(x)`; for an `Option` value
  this renders `None` when absent (`pyStrOpt`, `pyStrOptInt`, ...).
* Python call semantics (missing required positional arguments, unexpected
  keyword arguments) are made explicit where a claim is about them.
-/

/-! ### Generic character-list machinery

`IsSub n h` states that the character list `n` occurs contiguously inside
`h`; `prefB`, `sufB`, `subB` and `mism` are executable checks used both in
proofs and in `decide`-discharged side conditions.
-/

/-- The needle `n` occurs contiguously inside the haystack `h`. -/
def IsSub (n h : List Char) : Prop := ∃ p q, h = p ++ n ++ q

/-- Executable prefix test on character lists. -/
def prefB : List Char → List Char → Bool
  | [], _ => true
  | _ :: _, [] => false
  | a :: n, b :: h => a == b && prefB n h

/-- Executable suffix test on character lists. -/
def sufB (n h : List Char) : Bool := prefB n.reverse h.reverse

/-- Executable contiguous-occurrence test on character lists. -/
def subB (n : List Char) : List Char → Bool
  | [] => prefB n []
  | c :: t => prefB n (c :: t) || subB n t

/-- There is a position where `n` and `h` disagree, within both lengths. -/
def mism (n h : List Char) : Bool := (n.zip h).any (fun p => !(p.1 == p.2))

theorem prefB_iff (n : List Char) : ∀ (h : List Char), prefB n h = true ↔ ∃ t, h = n ++ t := by
  induction n with
  | nil => intro h; simp [prefB]
  | cons a n ih =>
    intro h
    cases h with
    | nil => simp [prefB]
    | cons b t =>
      simp only [prefB, Bool.and_eq_true, beq_iff_eq, ih]
      constructor
      · rintro ⟨rfl, s, rfl⟩
        exact ⟨s, rfl⟩
      · rintro ⟨s, hs⟩
        rw [List.cons_append] at hs
        injection hs with h1 h2
        exact ⟨h1.symm, s, h2⟩

theorem prefB_append_self (n t : List Char) : prefB n (n ++ t) = true :=
  (prefB_iff n (n ++ t)).mpr ⟨t, rfl⟩

theorem mism_not_prefB : ∀ {n h : List Char}, mism n h = true → ∀ r, prefB n (h ++ r) = false := by
  intro n
  induction n with
  | nil => intro h hm; simp [mism] at hm
  | cons a n ih =>
    intro h hm r
    cases h with
    | nil => simp [mism] at hm
    | cons b t =>
      simp only [mism, List.zip_cons_cons, List.any_cons, Bool.or_eq_true] at hm
      rcases hm with hab | htail
      · simp only [List.cons_append, prefB, Bool.and_eq_false_iff]
        left
        simpa using hab
      · simp only [List.cons_append, prefB, Bool.and_eq_false_iff]
        right
        exact ih htail r

theorem no_decomp_of_sufB_false {n h : List Char} (hs : sufB n h = false) :
    ∀ p, h ≠ p ++ n := by
  intro p hp
  have : sufB n h = true := by
    rw [hp, sufB, List.reverse_append]
    exact prefB_append_self n.reverse p.reverse
  simp [this] at hs

theorem subB_iff (n : List Char) : ∀ (h : List Char), subB n h = true ↔ IsSub n h := by
  intro h
  induction h with
  | nil =>
    simp only [subB, prefB_iff, IsSub]
    constructor
    · rintro ⟨t, ht⟩
      exact ⟨[], t, by simpa using ht⟩
    · rintro ⟨p, q, hpq⟩
      have := hpq.symm
      rw [List.append_assoc] at this
      rcases List.append_eq_nil.mp this with ⟨rfl, h2⟩
      rcases List.append_eq_nil.mp h2 with ⟨rfl, rfl⟩
      exact ⟨[], rfl⟩
  | cons c t ih =>
    simp only [subB, Bool.or_eq_true, prefB_iff, ih, IsSub]
    constructor
    · rintro (⟨s, hs⟩ | ⟨p, q, rfl⟩)
      · exact ⟨[], s, by simpa using hs⟩
      · exact ⟨c :: p, q, by simp⟩
    · rintro ⟨p, q, hpq⟩
      cases p with
      | nil => exact Or.inl ⟨q, by simpa using hpq⟩
      | cons d p' =>
        right
        rw [List.cons_append, List.cons_append] at hpq
        injection hpq with h1 h2
        exact ⟨p', q, h2⟩

theorem isSub_length_le {n h : List Char} (hs : IsSub n h) : n.length ≤ h.length := by
  obtain ⟨p, q, rfl⟩ := hs
  simp
  omega

theorem sub_append {n a b : List Char} (h : IsSub n (a ++ b)) :
    IsSub n a ∨ IsSub n b ∨
      ∃ n1 n2, n = n1 ++ n2 ∧ n2 ≠ [] ∧ (∃ p, a = p ++ n1) ∧ ∃ q, b = n2 ++ q := by
  obtain ⟨p, q, hpq⟩ := h
  rw [List.append_assoc] at hpq
  rcases List.append_eq_append_iff.mp hpq with ⟨x, hx1, hx2⟩ | ⟨y, hy1, hy2⟩
  · exact Or.inr (Or.inl ⟨x, q, by rw [hx2, List.append_assoc]⟩)
  · rcases List.append_eq_append_iff.mp hy2 with ⟨x', hx1', hx2'⟩ | ⟨y', hy1', hy2'⟩
    · exact Or.inl ⟨p, x', by rw [hy1, hx1', List.append_assoc]⟩
    · cases y' with
      | nil =>
        rw [List.append_nil] at hy1'
        exact Or.inl ⟨p, [], by rw [hy1, hy1', List.append_nil]⟩
      | cons z zs =>
        refine Or.inr (Or.inr ⟨y, z :: zs, hy1', by simp, ⟨p, hy1⟩, ⟨q, hy2'⟩⟩)

theorem sub_cons {n : List Char} {c : Char} {t : List Char}
    (hne : n ≠ []) (hc : c ∉ n) (h : IsSub n (c :: t)) : IsSub n t := by
  have h' : IsSub n ([c] ++ t) := by simpa using h
  rcases sub_append h' with h1 | h2 | ⟨n1, n2, hn, hn2, ⟨p, hp⟩, ⟨q, hq⟩⟩
  · obtain ⟨p, q, hpq⟩ := h1
    cases n with
    | nil => exact absurd rfl hne
    | cons d n' =>
      have hl := congrArg List.length hpq
      simp at hl
      have hp0 : p = [] := List.length_eq_zero.mp (by omega)
      have hq0 : q = [] := List.length_eq_zero.mp (by omega)
      have hn0 : n' = [] := List.length_eq_zero.mp (by omega)
      subst hp0; subst hq0; subst hn0
      simp at hpq
      exact absurd (by rw [hpq]; exact List.mem_cons_self _ _) hc
  · exact h2
  · cases n1 with
    | nil =>
      rw [List.nil_append] at hn
      exact ⟨[], q, by rw [hq, hn]; simp⟩
    | cons d n1' =>
      have hl := congrArg List.length hp
      simp at hl
      have hp0 : p = [] := List.length_eq_zero.mp (by omega)
      have hn0 : n1' = [] := List.length_eq_zero.mp (by omega)
      subst hp0; subst hn0
      simp at hp
      have : c ∈ n := by
        rw [hn, ← hp]
        simp
      exact absurd this hc

/-- Lines joined by a single newline character (models joining with a newline
separator at the character level). -/
def joinSep : List (List Char) → List Char
  | [] => []
  | [l] => l
  | l :: ls => l ++ '\n' :: joinSep ls

theorem joinSep_cons₂ (l : List Char) (l2 : List Char) (ls : List (List Char)) :
    joinSep (l :: l2 :: ls) = l ++ '\n' :: joinSep (l2 :: ls) := rfl

theorem sub_joinSep {n : List Char} (hne : n ≠ []) (hnl : '\n' ∉ n) :
    ∀ {L : List (List Char)}, IsSub n (joinSep L) → ∃ l ∈ L, IsSub n l := by
  intro L
  induction L with
  | nil =>
    rintro ⟨p, q, hpq⟩
    have : joinSep [] = [] := rfl
    rw [this] at hpq
    rcases List.append_eq_nil.mp hpq.symm with ⟨h2, rfl⟩
    rcases List.append_eq_nil.mp h2 with ⟨rfl, rfl⟩
    exact absurd rfl hne
  | cons l ls ih =>
    cases ls with
    | nil =>
      intro h
      exact ⟨l, by simp, by simpa [joinSep] using h⟩
    | cons l2 ls2 =>
      intro h
      rw [joinSep_cons₂] at h
      rcases sub_append h with h1 | h2 | ⟨n1, n2, hn, hn2, _, ⟨q, hq⟩⟩
      · exact ⟨l, by simp, h1⟩
      · have h3 : IsSub n (joinSep (l2 :: ls2)) := sub_cons hne hnl h2
        obtain ⟨l', hl', hs⟩ := ih h3
        exact ⟨l', by simp [hl'], hs⟩
      · cases n2 with
        | nil => exact absurd rfl hn2
        | cons c n2' =>
          rw [List.cons_append] at hq
          injection hq with h1 _
          have : '\n' ∈ n := by
            rw [hn, ← h1]
            simp
          exact absurd this hnl

theorem isSub_append_left (a : List Char) {n b : List Char} (h : IsSub n b) :
    IsSub n (a ++ b) := by
  obtain ⟨p, q, rfl⟩ := h
  exact ⟨a ++ p, q, by simp⟩

theorem isSub_append_right (b : List Char) {n a : List Char} (h : IsSub n a) :
    IsSub n (a ++ b) := by
  obtain ⟨p, q, rfl⟩ := h
  exact ⟨p, q ++ b, by simp⟩

theorem sub_of_mem_joinSep {l : List Char} :
    ∀ {L : List (List Char)}, l ∈ L → IsSub l (joinSep L) := by
  intro L
  induction L with
  | nil => intro h; simp at h
  | cons a ls ih =>
    intro h
    cases ls with
    | nil =>
      have : l = a := by simpa using h
      exact ⟨[], [], by simp [joinSep, this]⟩
    | cons l2 ls2 =>
      rw [joinSep_cons₂]
      rcases List.mem_cons.mp h with rfl | hmem
      · exact ⟨[], '\n' :: joinSep (l2 :: ls2), by simp⟩
      · have h1 : IsSub l (joinSep (l2 :: ls2)) := ih hmem
        have h2 : IsSub l (['\n'] ++ joinSep (l2 :: ls2)) := isSub_append_left _ h1
        simpa using isSub_append_left a h2

theorem eq_align {c : Char} {A B C D p q : List Char}
    (hA : c ∉ A) (hB : c ∉ B) (hC : c ∉ C) (hD : c ∉ D)
    (h : A ++ c :: B = p ++ (C ++ c :: D) ++ q) :
    (∃ p', A = p' ++ C) ∧ ∃ q', B = D ++ q' := by
  have hcount := congrArg (List.count c) h
  simp [List.count_append, List.count_cons] at hcount
  have hA0 : A.count c = 0 := List.count_eq_zero.mpr hA
  have hB0 : B.count c = 0 := List.count_eq_zero.mpr hB
  have hC0 : C.count c = 0 := List.count_eq_zero.mpr hC
  have hD0 : D.count c = 0 := List.count_eq_zero.mpr hD
  rw [hA0, hB0, hC0, hD0] at hcount
  have hp0 : p.count c = 0 := by omega
  have hq0 : q.count c = 0 := by omega
  have hpc : c ∉ p := List.count_eq_zero.mp hp0
  have hqc : c ∉ q := List.count_eq_zero.mp hq0
  have h' : A ++ c :: B = (p ++ C) ++ c :: (D ++ q) := by
    rw [h]
    simp [List.append_assoc]
  rcases List.append_eq_append_iff.mp h' with ⟨x, hx1, hx2⟩ | ⟨y, hy1, hy2⟩
  · cases x with
    | nil =>
      rw [List.append_nil] at hx1
      refine ⟨⟨p, hx1.symm⟩, ⟨q, ?_⟩⟩
      simpa using hx2
    | cons z zs =>
      rw [List.cons_append] at hx2
      injection hx2 with h1 h2
      exfalso
      apply hB
      rw [h2]
      simp
  · cases y with
    | nil =>
      rw [List.append_nil] at hy1
      refine ⟨⟨p, hy1⟩, ⟨q, ?_⟩⟩
      have := hy2
      simp at this
      exact this.symm
    | cons z zs =>
      rw [List.cons_append] at hy2
      injection hy2 with h1 h2
      exfalso
      have : c ∈ D ++ q := by
        rw [h2]
        simp
      rcases List.mem_append.mp this with hd | hq'
      · exact hD hd
      · exact hqc hq'

theorem needle_not_in_line {X Y rest : List Char}
    (hnsuf : ∀ p', [' ', ' ', ' '] ++ Y ++ [' '] ≠ p' ++ (X ++ [' ']))
    (hY : '=' ∉ Y) (hX : '=' ∉ X) (hrest : '=' ∉ rest) :
    ¬ IsSub (X ++ [' ', '=', ' ']) (([' ', ' ', ' '] ++ Y ++ [' ']) ++ '=' :: ' ' :: rest) := by
  rintro ⟨p, q, h⟩
  have hn : X ++ [' ', '=', ' '] = (X ++ [' ']) ++ '=' :: [' '] := by simp
  rw [hn] at h
  have hA : '=' ∉ [' ', ' ', ' '] ++ Y ++ [' '] := by
    simp only [List.mem_append, List.mem_singleton]
    rintro ((h1 | h2) | h3)
    · simp at h1
    · exact hY h2
    · simp at h3
  have hB : '=' ∉ ' ' :: rest := by
    simp only [List.mem_cons]
    rintro (h1 | h2)
    · simp at h1
    · exact hrest h2
  have hC : '=' ∉ X ++ [' '] := by
    simp only [List.mem_append, List.mem_singleton]
    rintro (h1 | h2)
    · exact hX h1
    · simp at h2
  have hD : '=' ∉ ([' '] : List Char) := by simp
  obtain ⟨⟨p', hp'⟩, _⟩ := eq_align hA hB hC hD h
  exact hnsuf p' hp'

/-! ### Parameter entries and block rendering

Every `__str__` method in `src/glmpy/nml.py` builds a list of pairs
`(rendered line, parameter value)` and joins the lines whose parameter value
is not `None` between a `&<block> ` header and a closing `/`.  `PEntry`
abstracts one such pair into (parameter name, rendered value text, presence
flag); `renderEntries` is the common framing, and per-class bridge lemmas
prove each embedded `__str__` equal to it.
-/

structure PEntry where
  pname : String
  rest : String
  flag : Bool

/-- The serialized line of one parameter entry: three spaces of indent,
the name, the equals sign, the rendered value. -/
def entryLine (e : PEntry) : String := "   " ++ e.pname ++ " = " ++ e.rest

def zipEntries : List String → List String → List Bool → List PEntry
  | n :: ns, r :: rs, f :: fs => ⟨n, r, f⟩ :: zipEntries ns rs fs
  | _, _, _ => []

/-- The lines actually emitted: the entries whose parameter is present,
in declared order. -/
def emitted (es : List PEntry) : List String :=
  (es.filter (fun e => e.flag)).map entryLine

/-- Python's `sep.join(lines)`. -/
def pyJoin (sep : String) : List String → String
  | [] => ""
  | [x] => x
  | x :: xs => x ++ sep ++ pyJoin sep xs

/-- The common framing of every block's `__str__`: header, newline, the
emitted lines joined by newlines, a final newline and the closing slash. -/
def renderEntries (hd : String) (es : List PEntry) : String :=
  hd ++ "\n" ++ pyJoin "\n" (emitted es) ++ "\n/"

/-- How many of the given lines start with the given needle. -/
def countLines (needle : String) (lines : List String) : Nat :=
  (lines.filter (fun l => prefB needle.data l.data)).length

/-- No rendered parameter value contains an equals sign (true of every value
the serializer is meant for: numbers, quoted names, boolean tokens). -/
abbrev entriesClean (es : List PEntry) : Prop := ∀ e ∈ es, ('=') ∉ e.rest.data

/-- The named parameter is absent (its value is `None`). -/
abbrev entriesAbsent (es : List PEntry) (X : String) : Prop :=
  ∀ e ∈ es, e.pname = X → e.flag = false

/-- The named parameter is present (its value is not `None`). -/
abbrev entriesPresent (es : List PEntry) (X : String) : Prop :=
  ∃ e ∈ es, e.pname = X ∧ e.flag = true

theorem pyJoin_data : ∀ (L : List String),
    (pyJoin "\n" L).data = joinSep (L.map String.data) := by
  intro L
  induction L with
  | nil => rfl
  | cons x xs ih =>
    cases xs with
    | nil => rfl
    | cons y ys =>
      show (x ++ "\n" ++ pyJoin "\n" (y :: ys)).data = _
      rw [String.data_append, String.data_append, ih]
      have h1 : ("\n" : String).data = ['\n'] := rfl
      rw [h1]
      simp only [List.map_cons]
      rw [joinSep_cons₂]
      simp [List.append_assoc]

theorem entryLine_data (e : PEntry) :
    (entryLine e).data = ("   " ++ e.pname ++ " = ").data ++ e.rest.data := rfl

theorem line_head_data (X : String) :
    ("   " ++ X ++ " = ").data = ([' ', ' ', ' '] ++ X.data) ++ [' ', '=', ' '] := rfl

theorem entryLine_data_align (e : PEntry) :
    (entryLine e).data =
      ([' ', ' ', ' '] ++ e.pname.data ++ [' ']) ++ '=' :: ' ' :: e.rest.data := by
  rw [entryLine_data, line_head_data]
  simp [List.append_assoc]

theorem needle_data (X : String) : (X ++ " = ").data = X.data ++ [' ', '=', ' '] := rfl

theorem renderEntries_data (hd : String) (es : List PEntry) :
    (renderEntries hd es).data =
      hd.data ++ '\n' :: (joinSep ((emitted es).map String.data) ++ '\n' :: ['/']) := by
  show (hd ++ "\n" ++ pyJoin "\n" (emitted es) ++ "\n/").data = _
  rw [String.data_append, String.data_append, String.data_append, pyJoin_data]
  have h1 : ("\n" : String).data = ['\n'] := rfl
  have h2 : ("\n/" : String).data = ['\n', '/'] := rfl
  rw [h1, h2]
  simp [List.append_assoc]

theorem joinSep_cons_ne (a : List Char) (L : List (List Char)) (h : L ≠ []) :
    joinSep (a :: L) = a ++ '\n' :: joinSep L := by
  cases L with
  | nil => exact absurd rfl h
  | cons b bs => rfl

theorem joinSep_append_last (x : List Char) :
    ∀ {M : List (List Char)}, M ≠ [] → joinSep (M ++ [x]) = joinSep M ++ '\n' :: x := by
  intro M
  induction M with
  | nil => intro h; exact absurd rfl h
  | cons a as ih =>
    intro _
    cases as with
    | nil => rfl
    | cons b bs =>
      rw [List.cons_append, joinSep_cons_ne a ((b :: bs) ++ [x]) (by simp),
        ih (by simp), joinSep_cons₂]
      simp [List.append_assoc]

theorem renderEntries_data_joinSep (hd : String) (es : List PEntry) :
    (renderEntries hd es).data =
      joinSep (hd.data ::
        (if emitted es = [] then [[], ['/']]
         else ((emitted es).map String.data) ++ [['/']])) := by
  rw [renderEntries_data]
  by_cases h : emitted es = []
  · rw [if_pos h, h]
    rfl
  · rw [if_neg h]
    have hM : (emitted es).map String.data ≠ [] := by simpa using h
    rw [joinSep_cons_ne hd.data (((emitted es).map String.data) ++ [['/']]) (by simp),
      joinSep_append_last ['/'] hM]

theorem master_absent (hd : String) (es : List PEntry) (X : String)
    (hhead : ¬ IsSub (X ++ " = ").data hd.data)
    (hXnl : '\n' ∉ X.data)
    (hXeq : ('=') ∉ X.data)
    (hsuf : ∀ e ∈ es, e.flag = true →
      sufB (X.data ++ [' ']) (([' ', ' ', ' '] ++ e.pname.data) ++ [' ']) = false)
    (hpeq : ∀ e ∈ es, e.flag = true → ('=') ∉ e.pname.data)
    (hclean : ∀ e ∈ es, e.flag = true → ('=') ∉ e.rest.data) :
    ¬ IsSub (X ++ " = ").data (renderEntries hd es).data := by
  intro hsub
  rw [renderEntries_data_joinSep] at hsub
  have hlen3 : (X ++ " = ").data.length = X.data.length + 3 := by
    rw [needle_data]; simp
  have hne : (X ++ " = ").data ≠ [] := by
    intro h0
    rw [h0] at hlen3
    simp at hlen3
  have hnl : '\n' ∉ (X ++ " = ").data := by
    rw [needle_data]
    simp only [List.mem_append]
    rintro (h1 | h2)
    · exact hXnl h1
    · simp at h2
  obtain ⟨l, hl, hs⟩ := sub_joinSep hne hnl hsub
  rcases List.mem_cons.mp hl with rfl | hl2
  · exact hhead hs
  · by_cases hE : emitted es = []
    · rw [if_pos hE] at hl2
      have hlen := isSub_length_le hs
      rcases List.mem_cons.mp hl2 with rfl | hl3
      · rw [hlen3] at hlen; simp at hlen
      · have : l = ['/'] := by simpa using hl3
        rw [this, hlen3] at hlen
        simp at hlen
    · rw [if_neg hE] at hl2
      rcases List.mem_append.mp hl2 with hline | hslash
      · obtain ⟨lstr, hmem, rfl⟩ := List.mem_map.mp hline
        obtain ⟨e, he, rfl⟩ := List.mem_map.mp hmem
        have hef : e ∈ es ∧ e.flag = true := by
          have hf := List.mem_filter.mp he
          exact ⟨hf.1, hf.2⟩
        have hND := needle_not_in_line
          (no_decomp_of_sufB_false (hsuf e hef.1 hef.2))
          (hpeq e hef.1 hef.2) hXeq (hclean e hef.1 hef.2)
        rw [needle_data, entryLine_data_align] at hs
        exact hND hs
      · have : l = ['/'] := by simpa using hslash
        have hlen := isSub_length_le hs
        rw [this, hlen3] at hlen
        simp at hlen

theorem master_count (es : List PEntry) (X : String)
    (hmism : ∀ e ∈ es, e.pname ≠ X →
      mism (("   " ++ X ++ " = ").data) (("   " ++ e.pname ++ " = ").data) = true) :
    countLines ("   " ++ X ++ " = ") (emitted es) =
      (es.filter (fun e => e.flag && e.pname == X)).length := by
  rw [countLines, emitted, List.filter_map, List.length_map, List.filter_filter]
  congr 1
  apply List.filter_congr
  intro e he
  simp only [Function.comp]
  by_cases hx : e.pname = X
  · have hpre : prefB ("   " ++ X ++ " = ").data (entryLine e).data = true := by
      rw [entryLine_data, hx]
      exact prefB_append_self _ _
    rw [hpre, hx]
    simp
  · have hpre : prefB ("   " ++ X ++ " = ").data (entryLine e).data = false := by
      rw [entryLine_data]
      exact mism_not_prefB (hmism e he hx) _
    rw [hpre]
    simp [hx]

theorem master_count_absent (es : List PEntry) (X : String)
    (hmism : ∀ e ∈ es, e.pname ≠ X →
      mism (("   " ++ X ++ " = ").data) (("   " ++ e.pname ++ " = ").data) = true)
    (habs : entriesAbsent es X) :
    countLines ("   " ++ X ++ " = ") (emitted es) = 0 := by
  rw [master_count es X hmism]
  rw [List.length_eq_zero]
  rw [List.filter_eq_nil_iff]
  intro e he
  intro hcontra
  simp at hcontra
  have := habs e he hcontra.2
  rw [this] at hcontra
  simp at hcontra

theorem master_count_present (es : List PEntry) (X : String)
    (hmism : ∀ e ∈ es, e.pname ≠ X →
      mism (("   " ++ X ++ " = ").data) (("   " ++ e.pname ++ " = ").data) = true)
    (hnd : (es.map PEntry.pname).Nodup)
    (hpres : entriesPresent es X) :
    countLines ("   " ++ X ++ " = ") (emitted es) = 1 := by
  rw [master_count es X hmism, ← List.countP_eq_length_filter]
  obtain ⟨e₀, he₀, hname, hflag⟩ := hpres
  have h1 : es.countP (fun e => e.flag && e.pname == X) ≤
      es.countP (fun e => e.pname == X) := by
    apply List.countP_mono_left
    intro e _ h
    simp at h
    simp [h.2]
  have h2 : es.countP (fun e => e.pname == X) =
      (es.map PEntry.pname).countP (fun s => s == X) := by
    rw [List.countP_map]
    rfl
  have h3 : (es.map PEntry.pname).countP (fun s => s == X) =
      (es.map PEntry.pname).count X := rfl
  have h4 : (es.map PEntry.pname).count X = 1 :=
    List.count_eq_one_of_mem hnd (List.mem_map.mpr ⟨e₀, he₀, hname⟩)
  have h5 : 0 < es.countP (fun e => e.flag && e.pname == X) := by
    rw [List.countP_pos_iff]
    exact ⟨e₀, he₀, by simp [hflag, hname]⟩
  omega

theorem emitted_sublist (es : List PEntry) :
    List.Sublist (emitted es) (es.map entryLine) :=
  (List.filter_sublist es).map entryLine

theorem sub_of_mem_emitted {l : String} (hd : String) {es : List PEntry}
    (h : l ∈ emitted es) : IsSub l.data (renderEntries hd es).data := by
  rw [renderEntries_data]
  have h1 : IsSub l.data (joinSep ((emitted es).map String.data)) :=
    sub_of_mem_joinSep (List.mem_map.mpr ⟨l, h, rfl⟩)
  have h2 := isSub_append_right ('\n' :: ['/']) h1
  have h3 := isSub_append_left ['\n'] h2
  have h4 := isSub_append_left hd.data h3
  simpa [List.append_assoc] using h4

/-! ### Python value helpers

`PyFloat` stands for a Python float, represented by its `str()` rendering:
the serializer only ever interpolates floats into f-strings.  The `pyStr*`
helpers are Python's `str()` on the value forms the serializer touches;
`str(None)` is the four-character text None.
-/

abbrev PyFloat := String

def pyStrOpt : Option String → String
  | some v => v
  | none => "None"

def pyStrOptInt : Option Int → String
  | some i => toString i
  | none => "None"

def pyStrFloat (v : PyFloat) : String := v

def pyStrStr (v : String) : String := v

/-- Python repr() of a string holding no quote or backslash characters. -/
def pyRepr (s : String) : String := "'" ++ s ++ "'"

/-- Python str() of a list of ints, as rendered by an f-string: brackets and
comma-space separators. -/
def pyStrIntList (l : List Int) : String :=
  "[" ++ pyJoin ", " (l.map (fun i => toString i)) ++ "]"

def pyStrOptIntList : Option (List Int) → String
  | some l => pyStrIntList l
  | none => "None"

/-! ### NMLBase helpers (src/glmpy/nml.py)

`fortran_bool_string` takes `Union[bool, List[bool], None]` and returns
`Union[str, List[Union[str, None]], None]`; the union argument and result
are the inductives `PyBoolArg` / `PyBoolRes`, and `fbsOnOptBool` /
`fbsOnOptList` are the `isinstance(_, List)` dispatch as seen from an
attribute typed `Optional[bool]` / `Optional[List[bool]]`.
-/

inductive PyBoolArg where
  | scalar : Option Bool → PyBoolArg
  | listOf : List (Option Bool) → PyBoolArg

inductive PyBoolRes where
  | scalar : Option String → PyBoolRes
  | listOf : List (Option String) → PyBoolRes
deriving DecidableEq

/-- NMLBase.fortran_bool_string: True ↦ ".true.", False ↦ ".false.",
anything else ↦ None; a list is mapped elementwise by the same rule. -/
def fortran_bool_string : PyBoolArg → PyBoolRes
  | PyBoolArg.listOf l =>
      PyBoolRes.listOf (l.map (fun item =>
        match item with
        | some true => some ".true."
        | some false => some ".false."
        | none => none))
  | PyBoolArg.scalar (some true) => PyBoolRes.scalar (some ".true.")
  | PyBoolArg.scalar (some false) => PyBoolRes.scalar (some ".false.")
  | PyBoolArg.scalar none => PyBoolRes.scalar none

def PyBoolRes.asScalar : PyBoolRes → Option String
  | PyBoolRes.scalar s => s
  | PyBoolRes.listOf _ => none

def PyBoolRes.asList : PyBoolRes → List (Option String)
  | PyBoolRes.listOf l => l
  | PyBoolRes.scalar _ => []

/-- fortran_bool_string applied to an attribute typed `Optional[bool]`
(the isinstance(List) test is false, so the scalar branch runs). -/
def fbsOnOptBool (b : Option Bool) : Option String :=
  (fortran_bool_string (PyBoolArg.scalar b)).asScalar

/-- fortran_bool_string applied to an attribute typed `Optional[List[bool]]`:
a list takes the list branch; None takes the scalar branch and yields None. -/
def fbsOnOptList : Option (List (Option Bool)) → Option (List (Option String))
  | some l => some (fortran_bool_string (PyBoolArg.listOf l)).asList
  | none => none

/-- NMLBase.comma_sep_list: `None` and `[]` are both falsy and yield None;
otherwise the items' str() forms (repr-quoted when inverted_commas is true)
joined by comma-space.  `pystr` is Python's str() on one item. -/
def comma_sep_list {α : Type} (pystr : α → String)
    (list_input : Option (List α)) (inverted_commas : Bool) : Option String :=
  if inverted_commas then
    match list_input with
    | none => none
    | some [] => none
    | some l => some (pyJoin ", " (l.map (fun item => pyRepr (pystr item))))
  else
    match list_input with
    | none => none
    | some [] => none
    | some l => some (pyJoin ", " (l.map (fun item => pystr item)))

/-- NMLBase.set_attributes: `for key, value in attrs_dict.items():
setattr(self, key, value)`.  The object's attribute state is a map from
attribute names to values; the helper is value-generic exactly as setattr is. -/
def set_attributes {α : Type} (self : String → Option α)
    (attrs_dict : List (String × α)) : String → Option α :=
  attrs_dict.foldl (fun st kv => fun name => if name = kv.1 then some kv.2 else st name) self

/-- The parameter names of set_attributes (besides self), from its def line. -/
def set_attributes_args : List String := ["attrs_dict"]

inductive PyExc where
  | typeErrorMissingArgs : List String → PyExc
  | typeErrorUnexpectedKw : String → PyExc
  | missingRequiredBlockError : String → PyExc
deriving DecidableEq

/-- Whether an exception is the MissingRequiredBlockError the spec names.
The constructor itself is modelled from the spec: no such exception class
exists anywhere in the code, and nothing in this file ever produces it. -/
def PyExc.isMissingRequiredBlock : PyExc → Bool
  | PyExc.missingRequiredBlockError _ => true
  | _ => false

/-- Calling set_attributes with the positional attrs_dict plus keyword
arguments, under Python call semantics: a keyword that is not a declared
parameter name raises TypeError (unexpected keyword argument). -/
def call_set_attributes {α : Type} (self : String → Option α)
    (attrs_dict : List (String × α))
    (kwargs : List (String × Option (List (String × α)))) :
    Except PyExc (String → Option α) :=
  match kwargs.find? (fun kv => !(set_attributes_args.contains kv.1)) with
  | some kv => Except.error (PyExc.typeErrorUnexpectedKw kv.1)
  | none => Except.ok (set_attributes self attrs_dict)

/-- Modelled from the spec: the populate operation with an optional override
mapping layered over the base mapping before assignment, override values
winning on key collision.  The code's set_attributes has no such parameter
(json.py's get_nml_attributes nevertheless calls it with `custom=...`); this
definition captures the layering the spec describes. -/
def populate_with_override {α : Type} (self : String → Option α)
    (mapping override : List (String × α)) : String → Option α :=
  set_attributes (set_attributes self mapping) override

/-! ### NMLSetup (src/glmpy/nml.py) -/

structure NMLSetup where
  sim_name : Option String := none
  max_layers : Option Int := none
  min_layer_vol : Option PyFloat := none
  min_layer_thick : Option PyFloat := none
  max_layer_thick : Option PyFloat := none
  density_model : Option Int := none
  non_avg : Option Bool := none

/-- The params list of NMLSetup.__str__: one (rendered line, value-is-present)
pair per parameter, in declared order. -/
def NMLSetup.params (s : NMLSetup) : List (String × Bool) :=
  [ ("   sim_name = '" ++ pyStrOpt s.sim_name ++ "'", s.sim_name.isSome),
    ("   max_layers = " ++ pyStrOptInt s.max_layers, s.max_layers.isSome),
    ("   min_layer_vol = " ++ pyStrOpt s.min_layer_vol, s.min_layer_vol.isSome),
    ("   min_layer_thick = " ++ pyStrOpt s.min_layer_thick, s.min_layer_thick.isSome),
    ("   max_layer_thick = " ++ pyStrOpt s.max_layer_thick, s.max_layer_thick.isSome),
    ("   density_model = " ++ pyStrOptInt s.density_model, s.density_model.isSome),
    ("   non_avg = " ++ pyStrOpt (fbsOnOptBool s.non_avg), s.non_avg.isSome) ]

/-- NMLSetup.__str__ (note the trailing space after the header, exactly as in
the source's "&glm_setup \n"). -/
def NMLSetup.toStr (s : NMLSetup) : String :=
  "&glm_setup \n" ++
    pyJoin "\n" (((NMLSetup.params s).filter (fun p => p.2)).map (fun p => p.1)) ++ "\n/"

def setupNames : List String :=
  ["sim_name", "max_layers", "min_layer_vol", "min_layer_thick",
   "max_layer_thick", "density_model", "non_avg"]

def setupRests (s : NMLSetup) : List String :=
  ["'" ++ pyStrOpt s.sim_name ++ "'", pyStrOptInt s.max_layers,
   pyStrOpt s.min_layer_vol, pyStrOpt s.min_layer_thick,
   pyStrOpt s.max_layer_thick, pyStrOptInt s.density_model,
   pyStrOpt (fbsOnOptBool s.non_avg)]

def setupFlags (s : NMLSetup) : List Bool :=
  [s.sim_name.isSome, s.max_layers.isSome, s.min_layer_vol.isSome,
   s.min_layer_thick.isSome, s.max_layer_thick.isSome,
   s.density_model.isSome, s.non_avg.isSome]

def setupEntries (s : NMLSetup) : List PEntry :=
  zipEntries setupNames (setupRests s) (setupFlags s)

theorem setup_params_entries (s : NMLSetup) :
    NMLSetup.params s = (setupEntries s).map (fun e => (entryLine e, e.flag)) := rfl

/-! ### NMLMorphometry (src/glmpy/nml.py) -/

structure NMLMorphometry where
  lake_name : Option String := none
  latitude : Option PyFloat := none
  longitude : Option PyFloat := none
  base_elev : Option PyFloat := none
  crest_elev : Option PyFloat := none
  bsn_len : Option PyFloat := none
  bsn_wid : Option PyFloat := none
  bsn_vals : Option PyFloat := none
  H : Option (List PyFloat) := none
  A : Option (List PyFloat) := none

def NMLMorphometry.params (m : NMLMorphometry) : List (String × Bool) :=
  [ ("   lake_name = '" ++ pyStrOpt m.lake_name ++ "'", m.lake_name.isSome),
    ("   latitude = " ++ pyStrOpt m.latitude, m.latitude.isSome),
    ("   longitude = " ++ pyStrOpt m.longitude, m.longitude.isSome),
    ("   base_elev = " ++ pyStrOpt m.base_elev, m.base_elev.isSome),
    ("   crest_elev = " ++ pyStrOpt m.crest_elev, m.crest_elev.isSome),
    ("   bsn_len = " ++ pyStrOpt m.bsn_len, m.bsn_len.isSome),
    ("   bsn_wid = " ++ pyStrOpt m.bsn_wid, m.bsn_wid.isSome),
    ("   bsn_vals = " ++ pyStrOpt m.bsn_vals, m.bsn_vals.isSome),
    ("   H = " ++ pyStrOpt (comma_sep_list pyStrFloat m.H false), m.H.isSome),
    ("   A = " ++ pyStrOpt (comma_sep_list pyStrFloat m.A false), m.A.isSome) ]

/-- NMLMorphometry.__str__ (header "&morphometry " with trailing space). -/
def NMLMorphometry.toStr (m : NMLMorphometry) : String :=
  "&morphometry \n" ++
    pyJoin "\n" (((NMLMorphometry.params m).filter (fun p => p.2)).map (fun p => p.1)) ++ "\n/"

def morphNames : List String :=
  ["lake_name", "latitude", "longitude", "base_elev", "crest_elev",
   "bsn_len", "bsn_wid", "bsn_vals", "H", "A"]

def morphRests (m : NMLMorphometry) : List String :=
  ["'" ++ pyStrOpt m.lake_name ++ "'", pyStrOpt m.latitude, pyStrOpt m.longitude,
   pyStrOpt m.base_elev, pyStrOpt m.crest_elev, pyStrOpt m.bsn_len,
   pyStrOpt m.bsn_wid, pyStrOpt m.bsn_vals,
   pyStrOpt (comma_sep_list pyStrFloat m.H false),
   pyStrOpt (comma_sep_list pyStrFloat m.A false)]

def morphFlags (m : NMLMorphometry) : List Bool :=
  [m.lake_name.isSome, m.latitude.isSome, m.longitude.isSome,
   m.base_elev.isSome, m.crest_elev.isSome, m.bsn_len.isSome,
   m.bsn_wid.isSome, m.bsn_vals.isSome, m.H.isSome, m.A.isSome]

def morphEntries (m : NMLMorphometry) : List PEntry :=
  zipEntries morphNames (morphRests m) (morphFlags m)

theorem morph_params_entries (m : NMLMorphometry) :
    NMLMorphometry.params m = (morphEntries m).map (fun e => (entryLine e, e.flag)) := rfl

/-! ### NMLOutput (src/glmpy/nml.py)

All constructor defaults are None except `csv_outlet_allinone: bool = False`.
The field is embedded as `Option Bool` (the render gate tests
`is not None`, and set_attributes may store any value), with the
constructor default `some false` mirroring `False`.
-/

structure NMLOutput where
  out_dir : Option String := none
  out_fn : Option String := none
  nsave : Option Int := none
  csv_lake_fname : Option String := none
  csv_point_nlevs : Option PyFloat := none
  csv_point_fname : Option String := none
  csv_point_frombot : Option (List PyFloat) := none
  csv_point_at : Option (List PyFloat) := none
  csv_point_nvars : Option Int := none
  csv_point_vars : Option (List String) := none
  csv_outlet_allinone : Option Bool := some false
  csv_outlet_fname : Option String := none
  csv_outlet_nvars : Option Int := none
  csv_outlet_vars : Option (List String) := none
  csv_ovrflw_fname : Option String := none

def NMLOutput.params (o : NMLOutput) : List (String × Bool) :=
  [ ("   out_dir = '" ++ pyStrOpt o.out_dir ++ "'", o.out_dir.isSome),
    ("   out_fn = '" ++ pyStrOpt o.out_fn ++ "'", o.out_fn.isSome),
    ("   nsave = " ++ pyStrOptInt o.nsave, o.nsave.isSome),
    ("   csv_lake_fname = '" ++ pyStrOpt o.csv_lake_fname ++ "'", o.csv_lake_fname.isSome),
    ("   csv_point_nlevs = " ++ pyStrOpt o.csv_point_nlevs, o.csv_point_nlevs.isSome),
    ("   csv_point_fname = '" ++ pyStrOpt o.csv_point_fname ++ "'", o.csv_point_fname.isSome),
    ("   csv_point_frombot = " ++ pyStrOpt (comma_sep_list pyStrFloat o.csv_point_frombot false),
      o.csv_point_frombot.isSome),
    ("   csv_point_at = " ++ pyStrOpt (comma_sep_list pyStrFloat o.csv_point_at false),
      o.csv_point_at.isSome),
    ("   csv_point_nvars = " ++ pyStrOptInt o.csv_point_nvars, o.csv_point_nvars.isSome),
    ("   csv_point_vars = " ++ pyStrOpt (comma_sep_list pyStrStr o.csv_point_vars true),
      o.csv_point_vars.isSome),
    ("   csv_outlet_allinone = " ++ pyStrOpt (fbsOnOptBool o.csv_outlet_allinone),
      o.csv_outlet_allinone.isSome),
    ("   csv_outlet_fname = '" ++ pyStrOpt o.csv_outlet_fname ++ "'", o.csv_outlet_fname.isSome),
    ("   csv_outlet_nvars = " ++ pyStrOptInt o.csv_outlet_nvars, o.csv_outlet_nvars.isSome),
    ("   csv_outlet_vars = " ++ pyStrOpt (comma_sep_list pyStrStr o.csv_outlet_vars true),
      o.csv_outlet_vars.isSome),
    ("   csv_ovrflw_fname = '" ++ pyStrOpt o.csv_ovrflw_fname ++ "'", o.csv_ovrflw_fname.isSome) ]

/-- NMLOutput.__str__ (header "&output " with trailing space). -/
def NMLOutput.toStr (o : NMLOutput) : String :=
  "&output \n" ++
    pyJoin "\n" (((NMLOutput.params o).filter (fun p => p.2)).map (fun p => p.1)) ++ "\n/"

def outputNames : List String :=
  ["out_dir", "out_fn", "nsave", "csv_lake_fname", "csv_point_nlevs",
   "csv_point_fname", "csv_point_frombot", "csv_point_at", "csv_point_nvars",
   "csv_point_vars", "csv_outlet_allinone", "csv_outlet_fname",
   "csv_outlet_nvars", "csv_outlet_vars", "csv_ovrflw_fname"]

def outputRests (o : NMLOutput) : List String :=
  ["'" ++ pyStrOpt o.out_dir ++ "'", "'" ++ pyStrOpt o.out_fn ++ "'",
   pyStrOptInt o.nsave, "'" ++ pyStrOpt o.csv_lake_fname ++ "'",
   pyStrOpt o.csv_point_nlevs, "'" ++ pyStrOpt o.csv_point_fname ++ "'",
   pyStrOpt (comma_sep_list pyStrFloat o.csv_point_frombot false),
   pyStrOpt (comma_sep_list pyStrFloat o.csv_point_at false),
   pyStrOptInt o.csv_point_nvars,
   pyStrOpt (comma_sep_list pyStrStr o.csv_point_vars true),
   pyStrOpt (fbsOnOptBool o.csv_outlet_allinone),
   "'" ++ pyStrOpt o.csv_outlet_fname ++ "'", pyStrOptInt o.csv_outlet_nvars,
   pyStrOpt (comma_sep_list pyStrStr o.csv_outlet_vars true),
   "'" ++ pyStrOpt o.csv_ovrflw_fname ++ "'"]

def outputFlags (o : NMLOutput) : List Bool :=
  [o.out_dir.isSome, o.out_fn.isSome, o.nsave.isSome, o.csv_lake_fname.isSome,
   o.csv_point_nlevs.isSome, o.csv_point_fname.isSome, o.csv_point_frombot.isSome,
   o.csv_point_at.isSome, o.csv_point_nvars.isSome, o.csv_point_vars.isSome,
   o.csv_outlet_allinone.isSome, o.csv_outlet_fname.isSome,
   o.csv_outlet_nvars.isSome, o.csv_outlet_vars.isSome, o.csv_ovrflw_fname.isSome]

def outputEntries (o : NMLOutput) : List PEntry :=
  zipEntries outputNames (outputRests o) (outputFlags o)

theorem output_params_entries (o : NMLOutput) :
    NMLOutput.params o = (outputEntries o).map (fun e => (entryLine e, e.flag)) := rfl

/-! ### NMLOutflows (src/glmpy/nml.py)

Note the `outlet_type` line: the source interpolates the raw attribute
(`f"   outlet_type = {self.outlet_type}"`) instead of passing it through
comma_sep_list as every other `List`-typed parameter of this class does, so
a list value renders with Python's bracketed list syntax.
-/

structure NMLOutflows where
  num_outlet : Option Int := none
  outflow_fl : Option String := none
  time_fmt : Option String := none
  outflow_factor : Option (List PyFloat) := none
  outflow_thick_limit : Option (List PyFloat) := none
  single_layer_draw : Option (List (Option Bool)) := none
  flt_off_sw : Option (List (Option Bool)) := none
  outlet_type : Option (List Int) := none
  outl_elvs : Option (List PyFloat) := none
  bsn_len_outl : Option (List PyFloat) := none
  bsn_wid_outl : Option (List PyFloat) := none
  seepage : Option Bool := none
  seepage_rate : Option PyFloat := none
  crest_width : Option PyFloat := none
  crest_factor : Option PyFloat := none

def NMLOutflows.params (f : NMLOutflows) : List (String × Bool) :=
  [ ("   num_outlet = " ++ pyStrOptInt f.num_outlet, f.num_outlet.isSome),
    ("   outflow_fl = '" ++ pyStrOpt f.outflow_fl ++ "'", f.outflow_fl.isSome),
    ("   time_fmt = '" ++ pyStrOpt f.time_fmt ++ "'", f.time_fmt.isSome),
    ("   outflow_factor = " ++ pyStrOpt (comma_sep_list pyStrFloat f.outflow_factor false),
      f.outflow_factor.isSome),
    ("   outflow_thick_limit = " ++
        pyStrOpt (comma_sep_list pyStrFloat f.outflow_thick_limit false),
      f.outflow_thick_limit.isSome),
    ("   single_layer_draw = " ++
        pyStrOpt (comma_sep_list pyStrOpt (fbsOnOptList f.single_layer_draw) false),
      f.single_layer_draw.isSome),
    ("   flt_off_sw = " ++
        pyStrOpt (comma_sep_list pyStrOpt (fbsOnOptList f.flt_off_sw) false),
      f.flt_off_sw.isSome),
    ("   outlet_type = " ++ pyStrOptIntList f.outlet_type, f.outlet_type.isSome),
    ("   outl_elvs = " ++ pyStrOpt (comma_sep_list pyStrFloat f.outl_elvs false),
      f.outl_elvs.isSome),
    ("   bsn_len_outl = " ++ pyStrOpt (comma_sep_list pyStrFloat f.bsn_len_outl false),
      f.bsn_len_outl.isSome),
    ("   bsn_wid_outl = " ++ pyStrOpt (comma_sep_list pyStrFloat f.bsn_wid_outl false),
      f.bsn_wid_outl.isSome),
    ("   seepage = " ++ pyStrOpt (fbsOnOptBool f.seepage), f.seepage.isSome),
    ("   seepage_rate = " ++ pyStrOpt f.seepage_rate, f.seepage_rate.isSome),
    ("   crest_width = " ++ pyStrOpt f.crest_width, f.crest_width.isSome),
    ("   crest_factor = " ++ pyStrOpt f.crest_factor, f.crest_factor.isSome) ]

/-- NMLOutflows.__str__ (header "&outflows " with trailing space). -/
def NMLOutflows.toStr (f : NMLOutflows) : String :=
  "&outflows \n" ++
    pyJoin "\n" (((NMLOutflows.params f).filter (fun p => p.2)).map (fun p => p.1)) ++ "\n/"

/-! ### The NML document class (src/glmpy/nml.py)

`NML.__init__` takes four required positional block arguments and ten
optional ones defaulting to None; `write_nml`'s inner `nml_output` appends
each non-None block's text plus one newline, in the fixed order written in
the source.  `NMLArgs` models the argument list of a call: the outer
`Option` is supplied-vs-omitted, the inner one is the Python value.
-/

structure NML where
  setup : Option String := none
  mixing : Option String := none
  morphometry : Option String := none
  time : Option String := none
  output : Option String := none
  init_profiles : Option String := none
  meteorology : Option String := none
  light : Option String := none
  bird_model : Option String := none
  inflows : Option String := none
  outflows : Option String := none
  sediment : Option String := none
  ice_snow : Option String := none
  wq_setup : Option String := none
deriving DecidableEq

/-- One `if <block> is not None: config_string += str(<block>) + "\n"` step. -/
def appendBlock (config_string : String) (b : Option String) : String :=
  match b with
  | some t => config_string ++ t ++ "\n"
  | none => config_string

/-- The inner nml_output of NML.write_nml: the if-chain in source order. -/
def NML.nml_output (d : NML) : String :=
  let c := ""
  let c := appendBlock c d.setup
  let c := appendBlock c d.mixing
  let c := appendBlock c d.wq_setup
  let c := appendBlock c d.morphometry
  let c := appendBlock c d.time
  let c := appendBlock c d.output
  let c := appendBlock c d.init_profiles
  let c := appendBlock c d.light
  let c := appendBlock c d.bird_model
  let c := appendBlock c d.sediment
  let c := appendBlock c d.ice_snow
  let c := appendBlock c d.meteorology
  let c := appendBlock c d.inflows
  let c := appendBlock c d.outflows
  c

/-- The document's slots in the canonical serialization order. -/
def NML.blockOrder (d : NML) : List (Option String) :=
  [d.setup, d.mixing, d.wq_setup, d.morphometry, d.time, d.output,
   d.init_profiles, d.light, d.bird_model, d.sediment, d.ice_snow,
   d.meteorology, d.inflows, d.outflows]

/-- Claim-side form of the document serialization: the non-absent blocks'
text concatenated in the given order, exactly one newline after each block,
nothing for an absent block. -/
def concatBlocks : List (Option String) → String
  | [] => ""
  | none :: rest => concatBlocks rest
  | some t :: rest => t ++ "\n" ++ concatBlocks rest

structure NMLArgs where
  setup : Option (Option String) := none
  morphometry : Option (Option String) := none
  time : Option (Option String) := none
  init_profiles : Option (Option String) := none
  mixing : Option (Option String) := none
  output : Option (Option String) := none
  meteorology : Option (Option String) := none
  light : Option (Option String) := none
  bird_model : Option (Option String) := none
  inflows : Option (Option String) := none
  outflows : Option (Option String) := none
  sediment : Option (Option String) := none
  ice_snow : Option (Option String) := none
  wq_setup : Option (Option String) := none

/-- The required positional parameters of NML.__init__ (no default in the
source) that a call leaves unsupplied, in signature order. -/
def requiredMissing (a : NMLArgs) : List String :=
  (if a.setup.isNone then ["setup"] else []) ++
  (if a.morphometry.isNone then ["morphometry"] else []) ++
  (if a.time.isNone then ["time"] else []) ++
  (if a.init_profiles.isNone then ["init_profiles"] else [])

/-- Calling NML.__init__ under Python call semantics: if any required
positional argument is missing the call raises TypeError before the body
runs; otherwise the body assigns each argument (optional ones defaulting to
None) to the matching attribute and performs no further validation. -/
def NML_init (a : NMLArgs) : Except PyExc NML :=
  if requiredMissing a = [] then
    Except.ok
      { setup := a.setup.getD none
        morphometry := a.morphometry.getD none
        time := a.time.getD none
        init_profiles := a.init_profiles.getD none
        mixing := a.mixing.getD none
        output := a.output.getD none
        meteorology := a.meteorology.getD none
        light := a.light.getD none
        bird_model := a.bird_model.getD none
        inflows := a.inflows.getD none
        outflows := a.outflows.getD none
        sediment := a.sediment.getD none
        ice_snow := a.ice_snow.getD none
        wq_setup := a.wq_setup.getD none }
  else
    Except.error (PyExc.typeErrorMissingArgs (requiredMissing a))

/-! ### Bridges from each `__str__` to the shared framing -/

theorem filter_map_pairs (es : List PEntry) :
    (((es.map (fun e => (entryLine e, e.flag))).filter (fun p => p.2)).map (fun p => p.1)) =
      emitted es := by
  rw [emitted]
  induction es with
  | nil => rfl
  | cons e es ih =>
    simp only [List.map_cons, List.filter_cons]
    cases hf : e.flag
    · simpa [hf] using ih
    · simp [hf, ih]

theorem setup_toStr_eq (s : NMLSetup) :
    NMLSetup.toStr s = renderEntries "&glm_setup " (setupEntries s) := by
  show "&glm_setup \n" ++
      pyJoin "\n" (((NMLSetup.params s).filter (fun p => p.2)).map (fun p => p.1)) ++ "\n/" = _
  rw [setup_params_entries, filter_map_pairs]
  rfl

theorem morph_toStr_eq (m : NMLMorphometry) :
    NMLMorphometry.toStr m = renderEntries "&morphometry " (morphEntries m) := by
  show "&morphometry \n" ++
      pyJoin "\n" (((NMLMorphometry.params m).filter (fun p => p.2)).map (fun p => p.1)) ++ "\n/" = _
  rw [morph_params_entries, filter_map_pairs]
  rfl

theorem output_toStr_eq (o : NMLOutput) :
    NMLOutput.toStr o = renderEntries "&output " (outputEntries o) := by
  show "&output \n" ++
      pyJoin "\n" (((NMLOutput.params o).filter (fun p => p.2)).map (fun p => p.1)) ++ "\n/" = _
  rw [output_params_entries, filter_map_pairs]
  rfl

/-! ### Generic per-class argument for claim C1 -/

theorem zipEntries_map_pname : ∀ (ns rs : List String) (fs : List Bool),
    ns.length = rs.length → ns.length = fs.length →
    (zipEntries ns rs fs).map PEntry.pname = ns := by
  intro ns
  induction ns with
  | nil => intro rs fs _ _; rfl
  | cons n ns ih =>
    intro rs fs h1 h2
    cases rs with
    | nil => simp at h1
    | cons r rs' =>
      cases fs with
      | nil => simp at h2
      | cons f fs' =>
        show PEntry.pname ⟨n, r, f⟩ :: (zipEntries ns rs' fs').map PEntry.pname = n :: ns
        rw [ih rs' fs' (by simpa using h1) (by simpa using h2)]

theorem class_claim (hd : String) (names rests : List String) (flags : List Bool)
    (hlr : names.length = rests.length) (hlf : names.length = flags.length)
    (hnodup : names.Nodup)
    (hhead : ∀ X ∈ names, subB (X ++ " = ").data hd.data = false)
    (hXok : ∀ X ∈ names, ('=') ∉ X.data ∧ '\n' ∉ X.data)
    (hmismN : ∀ X ∈ names, ∀ Y ∈ names, Y ≠ X →
      mism (("   " ++ X ++ " = ").data) (("   " ++ Y ++ " = ").data) = true)
    (hsufN : ∀ X ∈ names, ∀ Y ∈ names, Y ≠ X →
      sufB (X.data ++ [' ']) (([' ', ' ', ' '] ++ Y.data) ++ [' ']) = false)
    (X : String) (hX : X ∈ names)
    (hclean : entriesClean (zipEntries names rests flags)) :
    (entriesAbsent (zipEntries names rests flags) X →
      ¬ IsSub (X ++ " = ").data (renderEntries hd (zipEntries names rests flags)).data ∧
      countLines ("   " ++ X ++ " = ") (emitted (zipEntries names rests flags)) = 0) ∧
    (entriesPresent (zipEntries names rests flags) X →
      countLines ("   " ++ X ++ " = ") (emitted (zipEntries names rests flags)) = 1) := by
  have hpn : (zipEntries names rests flags).map PEntry.pname = names :=
    zipEntries_map_pname names rests flags hlr hlf
  have hmem_names : ∀ e ∈ zipEntries names rests flags, e.pname ∈ names := by
    intro e he
    rw [← hpn]
    exact List.mem_map.mpr ⟨e, he, rfl⟩
  have hmism' : ∀ e ∈ zipEntries names rests flags, e.pname ≠ X →
      mism (("   " ++ X ++ " = ").data) (("   " ++ e.pname ++ " = ").data) = true := by
    intro e he hne
    exact hmismN X hX e.pname (hmem_names e he) hne
  constructor
  · intro habs
    constructor
    · apply master_absent
      · intro hsub
        have hb : subB (X ++ " = ").data hd.data = true := (subB_iff _ _).mpr hsub
        rw [hhead X hX] at hb
        simp at hb
      · exact (hXok X hX).2
      · exact (hXok X hX).1
      · intro e he hf
        have hne : e.pname ≠ X := by
          intro heq
          have h0 := habs e he heq
          rw [h0] at hf
          simp at hf
        exact hsufN X hX e.pname (hmem_names e he) hne
      · intro e he _
        exact (hXok e.pname (hmem_names e he)).1
      · intro e he _
        exact hclean e he
    · exact master_count_absent _ X hmism' habs
  · intro hpres
    apply master_count_present _ X hmism' ?_ hpres
    rw [hpn]
    exact hnodup

/-! ### The claims -/

/-- C1: for the cited block classes NMLSetup and NMLMorphometry, whenever every
rendered parameter value is free of the equals sign (as the numeric, quoted and
boolean-token values the serializer is meant for always are): the block renders as
exactly the header, the present parameters' lines joined by newlines, and the
closing slash; an absent (None) parameter contributes no "<name> = " substring to
the rendered text and no emitted line starting with "   <name> = "; a present
parameter contributes exactly one such line; and the emitted lines are a sublist
of the full declared-order line list, so they appear in declared parameter order. -/
theorem glmpy_C1 :
    (∀ (s : NMLSetup) (X : String), X ∈ setupNames →
      entriesClean (setupEntries s) →
      NMLSetup.toStr s = renderEntries "&glm_setup " (setupEntries s) ∧
      (entriesAbsent (setupEntries s) X →
        ¬ IsSub (X ++ " = ").data (NMLSetup.toStr s).data ∧
        countLines ("   " ++ X ++ " = ") (emitted (setupEntries s)) = 0) ∧
      (entriesPresent (setupEntries s) X →
        countLines ("   " ++ X ++ " = ") (emitted (setupEntries s)) = 1) ∧
      List.Sublist (emitted (setupEntries s)) ((setupEntries s).map entryLine)) ∧
    (∀ (m : NMLMorphometry) (X : String), X ∈ morphNames →
      entriesClean (morphEntries m) →
      NMLMorphometry.toStr m = renderEntries "&morphometry " (morphEntries m) ∧
      (entriesAbsent (morphEntries m) X →
        ¬ IsSub (X ++ " = ").data (NMLMorphometry.toStr m).data ∧
        countLines ("   " ++ X ++ " = ") (emitted (morphEntries m)) = 0) ∧
      (entriesPresent (morphEntries m) X →
        countLines ("   " ++ X ++ " = ") (emitted (morphEntries m)) = 1) ∧
      List.Sublist (emitted (morphEntries m)) ((morphEntries m).map entryLine)) := by
  constructor
  · intro s X hX hclean
    have h := class_claim "&glm_setup " setupNames (setupRests s) (setupFlags s)
      rfl rfl (by decide) (by decide) (by decide) (by decide) (by decide) X hX hclean
    refine ⟨setup_toStr_eq s, ?_, h.2, emitted_sublist _⟩
    intro habs
    rw [setup_toStr_eq]
    exact h.1 habs
  · intro m X hX hclean
    have h := class_claim "&morphometry " morphNames (morphRests m) (morphFlags m)
      rfl rfl (by decide) (by decide) (by decide) (by decide) (by decide) X hX hclean
    refine ⟨morph_toStr_eq m, ?_, h.2, emitted_sublist _⟩
    intro habs
    rw [morph_toStr_eq]
    exact h.1 habs

theorem glmpy_C1_witness :
    ("max_layers" ∈ setupNames ∧
     entriesClean (setupEntries ({ sim_name := some "Lake A" } : NMLSetup)) ∧
     entriesAbsent (setupEntries ({ sim_name := some "Lake A" } : NMLSetup)) "max_layers" ∧
     entriesPresent (setupEntries ({ sim_name := some "Lake A" } : NMLSetup)) "sim_name") ∧
    (¬ IsSub ("max_layers" ++ " = ").data
        (NMLSetup.toStr ({ sim_name := some "Lake A" } : NMLSetup)).data ∧
     countLines ("   " ++ "max_layers" ++ " = ")
        (emitted (setupEntries ({ sim_name := some "Lake A" } : NMLSetup))) = 0) ∧
    countLines ("   " ++ "sim_name" ++ " = ")
        (emitted (setupEntries ({ sim_name := some "Lake A" } : NMLSetup))) = 1 := by
  refine ⟨⟨by decide, by decide, by decide, by decide⟩, ?_, ?_⟩
  · exact (glmpy_C1.1 { sim_name := some "Lake A" } "max_layers"
      (by decide) (by decide)).2.1 (by decide)
  · exact (glmpy_C1.1 { sim_name := some "Lake A" } "sim_name"
      (by decide) (by decide)).2.2.1 (by decide)

/-- C2 counterexample: the setup block with sim_name "Lake A", max_layers 500 and
non_avg True does not render to the claimed text, because the header line the code
writes is "&glm_setup " with a trailing space, not exactly "&glm_setup". -/
theorem glmpy_C2_cex :
    NMLSetup.toStr { sim_name := some "Lake A", max_layers := some 500,
                     non_avg := some true } ≠
      "&glm_setup\n   sim_name = 'Lake A'\n   max_layers = 500\n   non_avg = .true.\n/" := by
  decide

/-- C2 (amended): the block renders to the claimed text except that the header line
is "&glm_setup " with one trailing space; the parameter lines are indented by
exactly three spaces and the block ends with "/". -/
theorem glmpy_C2_amended :
    NMLSetup.toStr { sim_name := some "Lake A", max_layers := some 500,
                     non_avg := some true } =
      "&glm_setup \n   sim_name = 'Lake A'\n   max_layers = 500\n   non_avg = .true.\n/" := by
  decide

/-- C3 (code bug): comma_sep_list does treat the empty list like None — both give
None under either quoting flag — but a block parameter set to [] is not omitted:
[] is not None, so NMLMorphometry with H = [] emits the line "   H = None". -/
theorem glmpy_C3 :
    comma_sep_list pyStrFloat (some []) false = none ∧
    comma_sep_list pyStrFloat (some []) true = none ∧
    comma_sep_list pyStrFloat none false = none ∧
    comma_sep_list pyStrFloat none true = none ∧
    NMLMorphometry.toStr { H := some [] } = "&morphometry \n   H = None\n/" := by
  refine ⟨rfl, rfl, rfl, rfl, by decide⟩

/-- C4: the document serialization concatenates the non-absent blocks' text in the
fixed canonical order setup, mixing, wq_setup, morphometry, time, output,
init_profiles, light, bird_model, sediment, ice_snow, meteorology, inflows,
outflows — a fixed property of the document, independent of the call site — with
exactly one newline after each included block and nothing for absent blocks. -/
theorem glmpy_C4 (d : NML) : NML.nml_output d = concatBlocks (NML.blockOrder d) := by
  have hfold : ∀ (L : List (Option String)) (acc : String),
      L.foldl appendBlock acc = acc ++ concatBlocks L := by
    intro L
    induction L with
    | nil =>
      intro acc
      rw [List.foldl_nil]
      show acc = acc ++ ""
      rw [String.append_empty]
    | cons b rest ih =>
      intro acc
      cases b with
      | none =>
        rw [List.foldl_cons]
        show rest.foldl appendBlock acc = acc ++ concatBlocks (none :: rest)
        rw [ih acc]
        rfl
      | some t =>
        rw [List.foldl_cons, ih]
        show acc ++ t ++ "\n" ++ concatBlocks rest = acc ++ (t ++ "\n" ++ concatBlocks rest)
        simp [String.append_assoc]
  have h0 : NML.nml_output d = (NML.blockOrder d).foldl appendBlock "" := rfl
  rw [h0, hfold]
  rfl

/-- C5 counterexample: constructing the document without the morphometry block
raises Python's TypeError for a missing required positional argument; it is not a
MissingRequiredBlockError — no exception class of that name exists in the code. -/
theorem glmpy_C5_cex :
    NML_init { setup := some (some "S"), time := some (some "T"),
               init_profiles := some (some "I") } =
      Except.error (PyExc.typeErrorMissingArgs ["morphometry"]) ∧
    PyExc.isMissingRequiredBlock (PyExc.typeErrorMissingArgs ["morphometry"]) = false :=
  ⟨rfl, rfl⟩

/-- C5 (amended): omitting any of the four required blocks (setup, morphometry,
time, init_profiles) makes construction fail with Python's TypeError listing the
missing required positional arguments, the omitted slot's name among them; no
MissingRequiredBlockError exists in the code. -/
theorem glmpy_C5_amended (a : NMLArgs) :
    (a.setup = none →
      NML_init a = Except.error (PyExc.typeErrorMissingArgs (requiredMissing a)) ∧
      "setup" ∈ requiredMissing a) ∧
    (a.morphometry = none →
      NML_init a = Except.error (PyExc.typeErrorMissingArgs (requiredMissing a)) ∧
      "morphometry" ∈ requiredMissing a) ∧
    (a.time = none →
      NML_init a = Except.error (PyExc.typeErrorMissingArgs (requiredMissing a)) ∧
      "time" ∈ requiredMissing a) ∧
    (a.init_profiles = none →
      NML_init a = Except.error (PyExc.typeErrorMissingArgs (requiredMissing a)) ∧
      "init_profiles" ∈ requiredMissing a) := by
  have key : ∀ s, s ∈ requiredMissing a →
      NML_init a = Except.error (PyExc.typeErrorMissingArgs (requiredMissing a)) := by
    intro s hs
    rw [NML_init, if_neg (List.ne_nil_of_mem hs)]
  refine ⟨fun h => ?_, fun h => ?_, fun h => ?_, fun h => ?_⟩
  · have hm : "setup" ∈ requiredMissing a := by simp [requiredMissing, h]
    exact ⟨key _ hm, hm⟩
  · have hm : "morphometry" ∈ requiredMissing a := by simp [requiredMissing, h]
    exact ⟨key _ hm, hm⟩
  · have hm : "time" ∈ requiredMissing a := by simp [requiredMissing, h]
    exact ⟨key _ hm, hm⟩
  · have hm : "init_profiles" ∈ requiredMissing a := by simp [requiredMissing, h]
    exact ⟨key _ hm, hm⟩

theorem glmpy_C5_witness :
    ({} : NMLArgs).morphometry = none ∧
    NML_init {} = Except.error (PyExc.typeErrorMissingArgs (requiredMissing {})) ∧
    "morphometry" ∈ requiredMissing ({} : NMLArgs) :=
  ⟨rfl, (glmpy_C5_amended {}).2.1 rfl⟩

/-- C6 (code bug): json.py's get_nml_attributes calls set_attributes with a
`custom=` keyword argument, but set_attributes declares no such parameter, so
under Python call semantics the call raises TypeError (unexpected keyword
argument) instead of layering the override.  The override semantics the claim
and json.py's docstring describe, modelled from the spec as
populate_with_override, would give a = 1, b = 3, c = 4. -/
theorem glmpy_C6 :
    call_set_attributes (fun _ => (none : Option Int)) [("a", 1), ("b", 2)]
        [("custom", some [("b", 3), ("c", 4)])] =
      Except.error (PyExc.typeErrorUnexpectedKw "custom") ∧
    populate_with_override (fun _ => (none : Option Int))
        [("a", 1), ("b", 2)] [("b", 3), ("c", 4)] "a" = some 1 ∧
    populate_with_override (fun _ => (none : Option Int))
        [("a", 1), ("b", 2)] [("b", 3), ("c", 4)] "b" = some 3 ∧
    populate_with_override (fun _ => (none : Option Int))
        [("a", 1), ("b", 2)] [("b", 3), ("c", 4)] "c" = some 4 := by
  refine ⟨rfl, by decide, by decide, by decide⟩

/-- C7 (code bug): outlet_type, declared List[int], is the one list-typed
parameter rendered without comma_sep_list: the f-string interpolates the raw
list, so [1, 2] renders as the bracketed Python text "   outlet_type = [1, 2]",
while the comma_sep_list rule used by every other list parameter would give
"1, 2" (and a one-element list would render as the bare element). -/
theorem glmpy_C7 :
    NMLOutflows.toStr { outlet_type := some [1, 2] } =
      "&outflows \n   outlet_type = [1, 2]\n/" ∧
    comma_sep_list (fun i : Int => toString i) (some [1, 2]) false = some "1, 2" ∧
    comma_sep_list (fun i : Int => toString i) (some [7]) false = some "7" := by
  refine ⟨by decide, by decide, by decide⟩

/-- C8: fortran_bool_string maps True to ".true.", False to ".false." and None to
None (absence propagates without error), and maps a list elementwise by the same
rule, so [True, False] yields [".true.", ".false."]. -/
theorem glmpy_C8 :
    fortran_bool_string (PyBoolArg.scalar (some true)) = PyBoolRes.scalar (some ".true.") ∧
    fortran_bool_string (PyBoolArg.scalar (some false)) = PyBoolRes.scalar (some ".false.") ∧
    fortran_bool_string (PyBoolArg.scalar none) = PyBoolRes.scalar none ∧
    (∀ l : List (Option Bool),
      fortran_bool_string (PyBoolArg.listOf l) =
        PyBoolRes.listOf (l.map (fun b => (fortran_bool_string (PyBoolArg.scalar b)).asScalar))) ∧
    fortran_bool_string (PyBoolArg.listOf [some true, some false]) =
      PyBoolRes.listOf [some ".true.", some ".false."] := by
  refine ⟨rfl, rfl, rfl, ?_, rfl⟩
  intro l
  show PyBoolRes.listOf _ = PyBoolRes.listOf _
  congr 1
  apply List.map_congr_left
  intro b _
  rcases b with _ | bv
  · rfl
  · cases bv
    · rfl
    · rfl

theorem lookup_eq_none_of_not_mem {α : Type} {k : String} :
    ∀ {l : List (String × α)}, k ∉ l.map Prod.fst → List.lookup k l = none := by
  intro l
  induction l with
  | nil => intro _; rfl
  | cons kv rest ih =>
    intro h
    simp only [List.map_cons, List.mem_cons] at h
    push_neg at h
    obtain ⟨k1, v1⟩ := kv
    have hb : (k == k1) = false := by
      simp
      exact h.1
    simp only [List.lookup, hb]
    exact ih h.2

/-- C9: set_attributes assigns exactly the keys present in the mapping — any
name, recognized parameter or not, is set to the mapping's value — and every
attribute whose name is not a key of the mapping keeps its previous value. -/
theorem glmpy_C9 {α : Type} (self : String → Option α)
    (attrs_dict : List (String × α))
    (hnodup : (attrs_dict.map Prod.fst).Nodup) (k : String) :
    set_attributes self attrs_dict k =
      match List.lookup k attrs_dict with
      | some v => some v
      | none => self k := by
  induction attrs_dict generalizing self with
  | nil => rfl
  | cons kv rest ih =>
    obtain ⟨a, b⟩ := kv
    rw [List.map_cons] at hnodup
    have hcons := List.nodup_cons.mp hnodup
    show set_attributes (fun name => if name = a then some b else self name) rest k = _
    rw [ih _ hcons.2]
    by_cases hk : k = a
    · subst hk
      rw [lookup_eq_none_of_not_mem hcons.1]
      simp [List.lookup]
    · have hb : (k == a) = false := by
        simp
        exact hk
      simp only [List.lookup, hb]
      cases hlk : List.lookup k rest
      · simp [hk]
      · rfl

theorem glmpy_C9_witness :
    (([("a", (1 : Int)), ("b", 2)].map Prod.fst).Nodup) ∧
    set_attributes (fun _ => none) [("a", (1 : Int)), ("b", 2)] "b" = some 2 ∧
    set_attributes (fun _ => none) [("a", (1 : Int)), ("b", 2)] "zzz" = none := by
  refine ⟨by decide, ?_, ?_⟩
  · have h := glmpy_C9 (fun _ => none) [("a", (1 : Int)), ("b", 2)] (by decide) "b"
    simpa using h
  · have h := glmpy_C9 (fun _ => none) [("a", (1 : Int)), ("b", 2)] (by decide) "zzz"
    simpa using h

/-- C10: NMLOutput's csv_outlet_allinone constructor default is False, not None,
so a default-constructed block has it present, and the rendering of every
NMLOutput whose csv_outlet_allinone is (still) False contains the line
"   csv_outlet_allinone = .false." — an exception to unset-means-omitted. -/
theorem glmpy_C10 :
    ({} : NMLOutput).csv_outlet_allinone = some false ∧
    ∀ o : NMLOutput, o.csv_outlet_allinone = some false →
      IsSub ("   csv_outlet_allinone = .false.").data (NMLOutput.toStr o).data := by
  refine ⟨rfl, ?_⟩
  intro o h
  rw [output_toStr_eq]
  apply sub_of_mem_emitted
  rw [emitted]
  apply List.mem_map.mpr
  refine ⟨⟨"csv_outlet_allinone", pyStrOpt (fbsOnOptBool (some false)), true⟩, ?_, rfl⟩
  apply List.mem_filter.mpr
  refine ⟨?_, rfl⟩
  simp [outputEntries, zipEntries, outputNames, outputRests, outputFlags, h]

theorem glmpy_C10_witness :
    ({} : NMLOutput).csv_outlet_allinone = some false ∧
    IsSub ("   csv_outlet_allinone = .false.").data (NMLOutput.toStr {}).data :=
  ⟨rfl, glmpy_C10.2 {} rfl⟩
